import Mathlib

/-
Verification of the hand-tracking → physics → visuals pipeline of the
magic-ball interactive canvas.

Source files embedded here:
  - src/components/InteractiveCanvas.tsx (CONFIG, calculateGrip, animate)
  - src/components/HUD.tsx (the overlay metrics)
  - src/types.ts (HandGesture, HandData)

Numbers are modelled as real numbers (exact arithmetic); the one place
where IEEE-754 special values matter — the unguarded division by a zero
hand scale in calculateGrip — is modelled separately with an explicit
extended-value type JSVal that tracks NaN and the infinities.
-/

set_option autoImplicit false

namespace MagicBall

/-! ## Configuration constants (the CONFIG object, InteractiveCanvas.tsx lines 12-20) -/

def PARTICLE_COUNT : ℕ := 1200

noncomputable def SPHERE_RADIUS : ℝ := 1.5

noncomputable def SMOOTHING_FACTOR : ℝ := 0.15

noncomputable def COMPRESSION_FACTOR : ℝ := 0.7

/-! ## Data model -/

/-- One normalized hand landmark `(x, y, z)`; the grip and separation code
reads only `x` and `y`. -/
structure Lm where
  x : ℝ
  y : ℝ
  z : ℝ

/-- A detected hand: 21 landmarks with fixed semantic indices
(0 = wrist, 4/8/12/16/20 = fingertips, 9 = middle-finger base). -/
def Hand : Type := Fin 21 → Lm

/-- 2D Euclidean distance `Math.sqrt((b.x-a.x)^2 + (b.y-a.y)^2)` as written
inline throughout InteractiveCanvas.tsx. -/
noncomputable def dist2 (a b : Lm) : ℝ :=
  Real.sqrt ((b.x - a.x) ^ 2 + (b.y - a.y) ^ 2)

/-- World-space 3D vector (THREE.Vector3 as used by the physics state). -/
structure Vec3 where
  x : ℝ
  y : ℝ
  z : ℝ

/-- THREE.Vector3.lerp: `this += (v - this) * alpha`, componentwise. -/
noncomputable def Vec3.lerp (a b : Vec3) (t : ℝ) : Vec3 :=
  ⟨a.x + (b.x - a.x) * t, a.y + (b.y - a.y) * t, a.z + (b.z - a.z) * t⟩

/-- Componentwise scaling `(v.x * c, v.y * c, v.z * c)` (the
`basePos.x * compression` pattern of the particle loop). -/
noncomputable def Vec3.scale (v : Vec3) (c : ℝ) : Vec3 :=
  ⟨v.x * c, v.y * c, v.z * c⟩

/-- Componentwise subtraction, used to state residual errors. -/
noncomputable def Vec3.sub (a b : Vec3) : Vec3 :=
  ⟨a.x - b.x, a.y - b.y, a.z - b.z⟩

/-- The world origin `(0,0,0)`. -/
noncomputable def Vec3.origin : Vec3 := ⟨0, 0, 0⟩

/-! ## calculateGrip (InteractiveCanvas.tsx lines 235-257) -/

/-- Hand scale: wrist (landmark 0) to middle-finger base (landmark 9),
`Math.sqrt(pow(l9.x - wrist.x, 2) + pow(l9.y - wrist.y, 2))`. -/
noncomputable def scaleBase (l : Hand) : ℝ := dist2 (l 0) (l 9)

/-- Sum of the 2D distances of the five fingertips (landmarks 4, 8, 12,
16, 20) to the wrist (the `tips.forEach` accumulation of `totalDist`). -/
noncomputable def totalDist (l : Hand) : ℝ :=
  dist2 (l 0) (l 4) + dist2 (l 0) (l 8) + dist2 (l 0) (l 12) +
    dist2 (l 0) (l 16) + dist2 (l 0) (l 20)

/-- Source: `avgDist = totalDist / 5`. -/
noncomputable def avgDist (l : Hand) : ℝ := totalDist l / 5

/-- Source: `rawGrip = 1 - ((avgDist / scaleBase) - 0.6) / 1.2` (real-number
reading; the IEEE reading is `rawGripJS` below). -/
noncomputable def rawGrip (l : Hand) : ℝ :=
  1 - ((avgDist l / scaleBase l) - 0.6) / 1.2

/-- The return value of calculateGrip: `Math.max(0, Math.min(1, rawGrip))`. -/
noncomputable def calculateGrip (l : Hand) : ℝ :=
  max 0 (min 1 (rawGrip l))

/-! Basic facts about the grip formula shared by several claims. -/

theorem dist2_nonneg (a b : Lm) : 0 ≤ dist2 a b :=
  Real.sqrt_nonneg _

theorem totalDist_nonneg (l : Hand) : 0 ≤ totalDist l := by
  have h4 := dist2_nonneg (l 0) (l 4)
  have h8 := dist2_nonneg (l 0) (l 8)
  have h12 := dist2_nonneg (l 0) (l 12)
  have h16 := dist2_nonneg (l 0) (l 16)
  have h20 := dist2_nonneg (l 0) (l 20)
  unfold totalDist
  linarith

theorem avgDist_nonneg (l : Hand) : 0 ≤ avgDist l := by
  have := totalDist_nonneg l
  unfold avgDist
  linarith

theorem calculateGrip_mem_unit (l : Hand) :
    0 ≤ calculateGrip l ∧ calculateGrip l ≤ 1 := by
  unfold calculateGrip
  constructor
  · exact le_max_left 0 _
  · have h : min 1 (rawGrip l) ≤ 1 := min_le_left _ _
    exact max_le (by norm_num) h

/-- C1 -- For every hand with `scaleBase > 0`, `calculateGrip` is exactly the
clamped linear remap `clamp_[0,1](1 - ((avgDist/scaleBase) - 0.6) / 1.2)`
of the mean fingertip-to-wrist distance; ratio `1.8` gives `0`, ratio
`0.6` gives `1`, and the result is monotonically non-increasing in
`avgDist` at fixed `scaleBase`. -/
theorem grip_formula_spec (l : Hand) (hpos : 0 < scaleBase l) :
    calculateGrip l =
      max 0 (min 1 (1 - ((avgDist l / scaleBase l) - 0.6) / 1.2)) ∧
    (avgDist l / scaleBase l = 1.8 → calculateGrip l = 0) ∧
    (avgDist l / scaleBase l = 0.6 → calculateGrip l = 1) ∧
    (∀ l' : Hand, scaleBase l' = scaleBase l → avgDist l ≤ avgDist l' →
      calculateGrip l' ≤ calculateGrip l) := by
  refine ⟨rfl, ?_, ?_, ?_⟩
  · intro h
    unfold calculateGrip rawGrip
    rw [h]
    norm_num
  · intro h
    unfold calculateGrip rawGrip
    rw [h]
    norm_num
  · intro l' hscale hle
    unfold calculateGrip rawGrip
    rw [hscale]
    have hdiv : avgDist l / scaleBase l ≤ avgDist l' / scaleBase l :=
      div_le_div_of_nonneg_right hle hpos.le
    have hraw : 1 - ((avgDist l' / scaleBase l) - 0.6) / 1.2 ≤
        1 - ((avgDist l / scaleBase l) - 0.6) / 1.2 := by
      have : (avgDist l / scaleBase l - 0.6) / 1.2 ≤
          (avgDist l' / scaleBase l - 0.6) / 1.2 := by
        apply div_le_div_of_nonneg_right _ (by norm_num)
        linarith
      linarith
    exact max_le_max le_rfl (min_le_min le_rfl hraw)

/-- A canonical fully open hand: wrist at the origin, middle-finger base at
`(1,0)` (so `scaleBase = 1`), every fingertip at `(1.8, 0)` (so
`avgDist = 1.8`). -/
noncomputable def openHand : Hand := fun i =>
  if i = 0 then ⟨0, 0, 0⟩
  else if i = 9 then ⟨1, 0, 0⟩
  else ⟨1.8, 0, 0⟩

theorem openHand_scaleBase : scaleBase openHand = 1 := by
  unfold scaleBase dist2 openHand
  rw [if_pos rfl, if_neg (by decide), if_pos rfl]
  rw [show ((1:ℝ) - 0) ^ 2 + ((0:ℝ) - 0) ^ 2 = 1 ^ 2 by ring]
  rw [Real.sqrt_sq (by norm_num)]

theorem openHand_tipDist (i : Fin 21) (h0 : i ≠ 0) (h9 : i ≠ 9) :
    dist2 (openHand 0) (openHand i) = 1.8 := by
  unfold dist2 openHand
  rw [if_pos rfl, if_neg h0, if_neg h9]
  rw [show ((1.8:ℝ) - 0) ^ 2 + ((0:ℝ) - 0) ^ 2 = 1.8 ^ 2 by ring]
  rw [Real.sqrt_sq (by norm_num)]

theorem openHand_avgDist : avgDist openHand = 1.8 := by
  unfold avgDist totalDist
  rw [openHand_tipDist 4 (by decide) (by decide),
    openHand_tipDist 8 (by decide) (by decide),
    openHand_tipDist 12 (by decide) (by decide),
    openHand_tipDist 16 (by decide) (by decide),
    openHand_tipDist 20 (by decide) (by decide)]
  norm_num

theorem grip_formula_spec_witness :
    0 < scaleBase openHand ∧ calculateGrip openHand = 0 := by
  have h1 : scaleBase openHand = 1 := openHand_scaleBase
  have hpos : 0 < scaleBase openHand := by rw [h1]; norm_num
  refine ⟨hpos, ?_⟩
  have h := (grip_formula_spec openHand hpos).2.1
  apply h
  rw [openHand_avgDist, h1]
  norm_num

/-! ## The physics smoother (animate, lines 312-320) -/

/-- Scalar lerp `state + (target - state) * factor`, the
`state.gripStrength += (targetGrip - state.gripStrength) * SMOOTHING_FACTOR`
pattern. -/
noncomputable def lerp1 (s target f : ℝ) : ℝ := s + (target - s) * f

/-- One smoothing tick toward a constant scalar target. -/
noncomputable def smoothStep (target s : ℝ) : ℝ :=
  lerp1 s target SMOOTHING_FACTOR

/-- One smoothing tick of the position vector toward a constant target
(`state.position.lerp(targetPos, SMOOTHING_FACTOR)`). -/
noncomputable def smoothStepV (target s : Vec3) : Vec3 :=
  s.lerp target SMOOTHING_FACTOR

theorem smoothStep_residual (target : ℝ) (s : ℝ) :
    target - smoothStep target s = (1 - SMOOTHING_FACTOR) * (target - s) := by
  unfold smoothStep lerp1
  ring

theorem smoothStep_iterate_residual (target s : ℝ) (n : ℕ) :
    target - (smoothStep target)^[n] s =
      (1 - SMOOTHING_FACTOR) ^ n * (target - s) := by
  induction n with
  | zero => simp
  | succ n ih =>
    rw [Function.iterate_succ_apply', smoothStep_residual, ih]
    ring

theorem smoothStepV_iterate_coords (target v : Vec3) (n : ℕ) :
    (smoothStepV target)^[n] v =
      ⟨(smoothStep target.x)^[n] v.x, (smoothStep target.y)^[n] v.y,
        (smoothStep target.z)^[n] v.z⟩ := by
  induction n with
  | zero => rfl
  | succ n ih =>
    rw [Function.iterate_succ_apply', Function.iterate_succ_apply',
      Function.iterate_succ_apply', Function.iterate_succ_apply', ih]
    rfl

/-- C3 -- Iterating the per-frame smoothing update `n` times against a
constant target leaves a residual of exactly `(1 - SMOOTHING_FACTOR)^n`
times the initial error, both for the scalar update and for the
position-vector lerp, and the iterates converge to the target. -/
theorem smoother_geometric_convergence (s0 target : ℝ) (v0 vt : Vec3) (n : ℕ) :
    target - (smoothStep target)^[n] s0 =
      (1 - SMOOTHING_FACTOR) ^ n * (target - s0) ∧
    vt.sub ((smoothStepV vt)^[n] v0) =
      (vt.sub v0).scale ((1 - SMOOTHING_FACTOR) ^ n) ∧
    Filter.Tendsto (fun m => (smoothStep target)^[m] s0)
      Filter.atTop (nhds target) := by
  refine ⟨smoothStep_iterate_residual target s0 n, ?_, ?_⟩
  · rw [smoothStepV_iterate_coords]
    unfold Vec3.sub Vec3.scale
    dsimp only
    simp only [Vec3.mk.injEq]
    refine ⟨?_, ?_, ?_⟩ <;> rw [smoothStep_iterate_residual] <;> ring
  · have hr : (0:ℝ) ≤ 1 - SMOOTHING_FACTOR ∧ 1 - SMOOTHING_FACTOR < 1 := by
      unfold SMOOTHING_FACTOR
      norm_num
    have hpow : Filter.Tendsto (fun m : ℕ => (1 - SMOOTHING_FACTOR) ^ m)
        Filter.atTop (nhds 0) :=
      tendsto_pow_atTop_nhds_zero_of_lt_one hr.1 hr.2
    have hres : Filter.Tendsto
        (fun m : ℕ => (1 - SMOOTHING_FACTOR) ^ m * (target - s0))
        Filter.atTop (nhds 0) := by
      have := hpow.mul_const (target - s0)
      simpa using this
    have hfun : (fun m : ℕ => (smoothStep target)^[m] s0) =
        fun m : ℕ => target - (1 - SMOOTHING_FACTOR) ^ m * (target - s0) := by
      funext m
      have := smoothStep_iterate_residual target s0 m
      linarith
    rw [hfun]
    have := Filter.Tendsto.const_sub target hres
    simpa using this

/-! ## The per-frame update (animate, lines 261-320) -/

/-- The mutable physics state (InteractiveCanvas.tsx lines 44-50). -/
structure PhysicsState where
  position : Vec3
  splitFactor : ℝ
  gripStrength : ℝ
  rotationSpeed : ℝ
  time : ℝ

/-- Initial physics state: origin position, split 0, grip 0, rotation
speed 0.005, time 0. -/
noncomputable def initState : PhysicsState := ⟨Vec3.origin, 0, 0, 0.005, 0⟩

inductive TrackingMode where
  | NONE
  | SINGLE
  | DUAL
deriving DecidableEq

/-- What the hand landmarker returned this frame: zero, one or two
landmark sets. -/
inductive Detection where
  | noHands
  | oneHand (h : Hand)
  | twoHands (h1 h2 : Hand)

/-- Distance between landmark 9 of the two hands,
`Math.sqrt(pow(h1[9].x - h2[9].x, 2) + pow(h1[9].y - h2[9].y, 2))`. -/
noncomputable def dualDist (h1 h2 : Hand) : ℝ := dist2 (h2 9) (h1 9)

/-- Source: `targetSplit = Math.max(0, Math.min(1, (dist - 0.1) / 0.5))`
(line 297). -/
noncomputable def targetSplitOfDist (d : ℝ) : ℝ :=
  max 0 (min 1 ((d - 0.1) / 0.5))

/-- The per-frame target values produced by the vision-processing block
(lines 271-309): position target, grip target, split target, hand
presence and tracking mode. -/
structure FrameTargets where
  targetPos : Vec3
  targetGrip : ℝ
  targetSplit : ℝ
  isPresent : Bool
  trackingMode : TrackingMode

/-- Vision processing for one fresh frame; `world` abstracts
`mapScreenToWorld` (it depends on the camera, which the claims never
inspect). One hand: center = its landmark 9; two hands: center =
midpoint of the two landmark 9 points, split from their distance, grip
averaged over both hands. -/
noncomputable def visionTargets (world : ℝ → ℝ → Vec3) :
    Detection → FrameTargets
  | .noHands => ⟨Vec3.origin, 0, 0, false, .NONE⟩
  | .oneHand h =>
      ⟨world (h 9).x (h 9).y, calculateGrip h, 0, true, .SINGLE⟩
  | .twoHands h1 h2 =>
      ⟨world (((h1 9).x + (h2 9).x) / 2) (((h1 9).y + (h2 9).y) / 2),
        (calculateGrip h1 + calculateGrip h2) / 2,
        targetSplitOfDist (dualDist h1 h2), true, .DUAL⟩

/-- One whole animate tick, physics part: advance `time` by 0.01, compute
the frame targets (defaults when the video timestamp has not advanced,
`sameTime = true`, in which case detection is skipped entirely), force
the position target to the origin when no hand is present, then lerp all
three smoothed values by `SMOOTHING_FACTOR` and recompute the rotation
speed. -/
noncomputable def stepFrame (world : ℝ → ℝ → Vec3) (sameTime : Bool)
    (det : Detection) (s : PhysicsState) : PhysicsState × FrameTargets :=
  let s0 : PhysicsState := { s with time := s.time + 0.01 }
  let t : FrameTargets :=
    if sameTime then ⟨Vec3.origin, 0, 0, false, .NONE⟩
    else visionTargets world det
  let tp : Vec3 := if t.isPresent then t.targetPos else Vec3.origin
  let s1 : PhysicsState :=
    { s0 with
      position := s0.position.lerp tp SMOOTHING_FACTOR
      gripStrength := lerp1 s0.gripStrength t.targetGrip SMOOTHING_FACTOR
      splitFactor := lerp1 s0.splitFactor t.targetSplit SMOOTHING_FACTOR }
  let s2 : PhysicsState :=
    { s1 with
      rotationSpeed :=
        0.005 + s1.gripStrength * 0.05 + s1.splitFactor * 0.02 }
  (s2, { t with targetPos := tp })

/-- C8 -- On a tick whose video timestamp equals the last processed one,
detection is skipped: the frame targets are the defaults (origin
position target, grip 0, split 0, hand not present, mode NONE) no matter
what the detector would have returned, and the smoothed state is lerped
one step toward `(origin, 0, 0)`. -/
theorem stale_frame_defaults (world : ℝ → ℝ → Vec3) (det : Detection)
    (s : PhysicsState) :
    stepFrame world true det s = stepFrame world true Detection.noHands s ∧
    (stepFrame world true det s).2 =
      ⟨Vec3.origin, 0, 0, false, TrackingMode.NONE⟩ ∧
    (stepFrame world true det s).1.position =
      s.position.lerp Vec3.origin SMOOTHING_FACTOR ∧
    (stepFrame world true det s).1.gripStrength =
      lerp1 s.gripStrength 0 SMOOTHING_FACTOR ∧
    (stepFrame world true det s).1.splitFactor =
      lerp1 s.splitFactor 0 SMOOTHING_FACTOR :=
  ⟨rfl, rfl, rfl, rfl, rfl⟩

/-- C4 -- The dual-hand split target is the clamped linear remap of the
landmark-9 distance from `[0.1, 0.6]` to `[0, 1]`: distance `≤ 0.1`
gives 0, `≥ 0.6` gives 1, linear in between, always in `[0, 1]`. -/
theorem split_remap_spec (h1 h2 : Hand) :
    targetSplitOfDist (dualDist h1 h2) =
      max 0 (min 1 ((dualDist h1 h2 - 0.1) / 0.5)) ∧
    (dualDist h1 h2 ≤ 0.1 → targetSplitOfDist (dualDist h1 h2) = 0) ∧
    (0.6 ≤ dualDist h1 h2 → targetSplitOfDist (dualDist h1 h2) = 1) ∧
    (0.1 ≤ dualDist h1 h2 → dualDist h1 h2 ≤ 0.6 →
      targetSplitOfDist (dualDist h1 h2) = (dualDist h1 h2 - 0.1) / 0.5) ∧
    0 ≤ targetSplitOfDist (dualDist h1 h2) ∧
    targetSplitOfDist (dualDist h1 h2) ≤ 1 := by
  set d := dualDist h1 h2 with hd
  have hlin : (d - 0.1) / 0.5 = 2 * d - 0.2 := by ring
  refine ⟨rfl, ?_, ?_, ?_, le_max_left 0 _, ?_⟩
  · intro h
    unfold targetSplitOfDist
    rw [hlin, min_eq_right (by linarith), max_eq_left (by linarith)]
  · intro h
    unfold targetSplitOfDist
    rw [hlin, min_eq_left (by linarith), max_eq_right (by norm_num)]
  · intro hlo hhi
    unfold targetSplitOfDist
    rw [hlin, min_eq_right (by linarith), max_eq_right (by linarith)]
  · exact max_le (by norm_num) (min_le_left _ _)

/-- A degenerate hand: every landmark at the origin (`scaleBase = 0`). -/
noncomputable def zeroHand : Hand := fun _ => ⟨0, 0, 0⟩

/-- A hand whose landmark 9 sits at `(0.35, 0)` and whose other
landmarks are at the origin. -/
noncomputable def rightHand : Hand := fun i =>
  if i = 9 then ⟨0.35, 0, 0⟩ else ⟨0, 0, 0⟩

theorem rightHand_dualDist : dualDist rightHand zeroHand = 0.35 := by
  unfold dualDist dist2 rightHand zeroHand
  rw [if_pos rfl]
  rw [show ((0.35:ℝ) - 0) ^ 2 + ((0:ℝ) - 0) ^ 2 = 0.35 ^ 2 by ring]
  rw [Real.sqrt_sq (by norm_num)]

theorem split_remap_spec_witness :
    0.1 ≤ dualDist rightHand zeroHand ∧
    dualDist rightHand zeroHand ≤ 0.6 ∧
    targetSplitOfDist (dualDist rightHand zeroHand) = 0.5 := by
  have hd := rightHand_dualDist
  have hlo : (0.1:ℝ) ≤ dualDist rightHand zeroHand := by rw [hd]; norm_num
  have hhi : dualDist rightHand zeroHand ≤ 0.6 := by rw [hd]; norm_num
  refine ⟨hlo, hhi, ?_⟩
  have h := (split_remap_spec rightHand zeroHand).2.2.2.1 hlo hhi
  rw [h, hd]
  norm_num

/-! ## The unit-interval invariant of the smoothed state -/

theorem lerp1_mem_unit (s t : ℝ) (hs0 : 0 ≤ s) (hs1 : s ≤ 1)
    (ht0 : 0 ≤ t) (ht1 : t ≤ 1) :
    0 ≤ lerp1 s t SMOOTHING_FACTOR ∧ lerp1 s t SMOOTHING_FACTOR ≤ 1 := by
  unfold lerp1 SMOOTHING_FACTOR
  constructor <;> nlinarith

/-- Precondition from the claim: every landmark set processed has a
strictly positive hand scale. -/
def validDetection : Detection → Prop
  | .noHands => True
  | .oneHand h => 0 < scaleBase h
  | .twoHands h1 h2 => 0 < scaleBase h1 ∧ 0 < scaleBase h2

theorem visionTargets_grip_mem_unit (world : ℝ → ℝ → Vec3)
    (det : Detection) :
    0 ≤ (visionTargets world det).targetGrip ∧
    (visionTargets world det).targetGrip ≤ 1 := by
  cases det with
  | noHands => exact ⟨le_refl 0, by show (0:ℝ) ≤ 1; norm_num⟩
  | oneHand h => exact calculateGrip_mem_unit h
  | twoHands h1 h2 =>
    have g1 := calculateGrip_mem_unit h1
    have g2 := calculateGrip_mem_unit h2
    unfold visionTargets
    constructor <;> [linarith [g1.1, g2.1]; linarith [g1.2, g2.2]]

theorem visionTargets_split_mem_unit (world : ℝ → ℝ → Vec3)
    (det : Detection) :
    0 ≤ (visionTargets world det).targetSplit ∧
    (visionTargets world det).targetSplit ≤ 1 := by
  cases det with
  | noHands => exact ⟨le_refl 0, by show (0:ℝ) ≤ 1; norm_num⟩
  | oneHand h => exact ⟨le_refl 0, by show (0:ℝ) ≤ 1; norm_num⟩
  | twoHands h1 h2 =>
    unfold visionTargets targetSplitOfDist
    exact ⟨le_max_left 0 _, max_le (by norm_num) (min_le_left _ _)⟩

theorem stepFrame_grip (world : ℝ → ℝ → Vec3) (b : Bool) (det : Detection)
    (s : PhysicsState) :
    (stepFrame world b det s).1.gripStrength =
      lerp1 s.gripStrength
        (if b then 0 else (visionTargets world det).targetGrip)
        SMOOTHING_FACTOR := by
  cases b <;> rfl

theorem stepFrame_split (world : ℝ → ℝ → Vec3) (b : Bool) (det : Detection)
    (s : PhysicsState) :
    (stepFrame world b det s).1.splitFactor =
      lerp1 s.splitFactor
        (if b then 0 else (visionTargets world det).targetSplit)
        SMOOTHING_FACTOR := by
  cases b <;> rfl

theorem stepFrame_preserves_unit (world : ℝ → ℝ → Vec3) (b : Bool)
    (det : Detection) (s : PhysicsState)
    (hg0 : 0 ≤ s.gripStrength) (hg1 : s.gripStrength ≤ 1)
    (hs0 : 0 ≤ s.splitFactor) (hs1 : s.splitFactor ≤ 1) :
    0 ≤ (stepFrame world b det s).1.gripStrength ∧
    (stepFrame world b det s).1.gripStrength ≤ 1 ∧
    0 ≤ (stepFrame world b det s).1.splitFactor ∧
    (stepFrame world b det s).1.splitFactor ≤ 1 := by
  rw [stepFrame_grip, stepFrame_split]
  have hgt : 0 ≤ (if b then (0:ℝ) else (visionTargets world det).targetGrip) ∧
      (if b then (0:ℝ) else (visionTargets world det).targetGrip) ≤ 1 := by
    cases b with
    | false => exact visionTargets_grip_mem_unit world det
    | true => exact ⟨le_refl 0, by norm_num⟩
  have hst : 0 ≤ (if b then (0:ℝ) else (visionTargets world det).targetSplit) ∧
      (if b then (0:ℝ) else (visionTargets world det).targetSplit) ≤ 1 := by
    cases b with
    | false => exact visionTargets_split_mem_unit world det
    | true => exact ⟨le_refl 0, by norm_num⟩
  have h1 := lerp1_mem_unit s.gripStrength _ hg0 hg1 hgt.1 hgt.2
  have h2 := lerp1_mem_unit s.splitFactor _ hs0 hs1 hst.1 hst.2
  exact ⟨h1.1, h1.2, h2.1, h2.2⟩

/-- Run the physics part of the animate loop over a list of frames, each
frame given by its stale-timestamp flag and its detection result,
starting from the initial state. -/
noncomputable def runFrames (world : ℝ → ℝ → Vec3)
    (fs : List (Bool × Detection)) : PhysicsState :=
  fs.foldl (fun s f => (stepFrame world f.1 f.2 s).1) initState

theorem runFrames_aux (world : ℝ → ℝ → Vec3) (fs : List (Bool × Detection))
    (s : PhysicsState)
    (hg0 : 0 ≤ s.gripStrength) (hg1 : s.gripStrength ≤ 1)
    (hs0 : 0 ≤ s.splitFactor) (hs1 : s.splitFactor ≤ 1) :
    0 ≤ (fs.foldl (fun s f => (stepFrame world f.1 f.2 s).1) s).gripStrength ∧
    (fs.foldl (fun s f => (stepFrame world f.1 f.2 s).1) s).gripStrength ≤ 1 ∧
    0 ≤ (fs.foldl (fun s f => (stepFrame world f.1 f.2 s).1) s).splitFactor ∧
    (fs.foldl (fun s f => (stepFrame world f.1 f.2 s).1) s).splitFactor ≤ 1 := by
  induction fs generalizing s with
  | nil => exact ⟨hg0, hg1, hs0, hs1⟩
  | cons f fs ih =>
    have hstep := stepFrame_preserves_unit world f.1 f.2 s hg0 hg1 hs0 hs1
    exact ih _ hstep.1 hstep.2.1 hstep.2.2.1 hstep.2.2.2

/-- C6 -- Starting from the initial state (grip 0, split 0) and running
any sequence of frames whose landmark sets all have positive hand scale,
the smoothed `gripStrength` and `splitFactor` stay in `[0, 1]`: every
per-frame target is clamped into `[0, 1]` and lerping by
`SMOOTHING_FACTOR` between two unit-interval values stays inside. -/
theorem smoothed_state_in_unit_interval (world : ℝ → ℝ → Vec3)
    (fs : List (Bool × Detection))
    (hvalid : ∀ f ∈ fs, validDetection f.2) :
    0 ≤ (runFrames world fs).gripStrength ∧
    (runFrames world fs).gripStrength ≤ 1 ∧
    0 ≤ (runFrames world fs).splitFactor ∧
    (runFrames world fs).splitFactor ≤ 1 := by
  unfold runFrames
  exact runFrames_aux world fs initState (le_refl 0)
    (by show (0:ℝ) ≤ 1; norm_num) (le_refl 0) (by show (0:ℝ) ≤ 1; norm_num)

theorem smoothed_state_in_unit_interval_witness :
    (∀ f ∈ [((false : Bool), Detection.oneHand openHand)],
      validDetection f.2) ∧
    0 ≤ (runFrames (fun _ _ => Vec3.origin)
        [((false : Bool), Detection.oneHand openHand)]).gripStrength ∧
    (runFrames (fun _ _ => Vec3.origin)
        [((false : Bool), Detection.oneHand openHand)]).gripStrength ≤ 1 ∧
    0 ≤ (runFrames (fun _ _ => Vec3.origin)
        [((false : Bool), Detection.oneHand openHand)]).splitFactor ∧
    (runFrames (fun _ _ => Vec3.origin)
        [((false : Bool), Detection.oneHand openHand)]).splitFactor ≤ 1 := by
  have hval : ∀ f ∈ [((false : Bool), Detection.oneHand openHand)],
      validDetection f.2 := by
    intro f hf
    rw [List.mem_singleton] at hf
    subst hf
    show 0 < scaleBase openHand
    rw [openHand_scaleBase]
    norm_num
  exact ⟨hval, smoothed_state_in_unit_interval _ _ hval⟩

/-! ## UI snapshot sync (animate, lines 416-433; types.ts) -/

inductive HandGesture where
  | NONE
  | GRIP
  | HOVER
  | SPLIT
deriving DecidableEq

structure Point2 where
  x : ℝ
  y : ℝ

/-- The HandData record of types.ts. -/
structure HandData where
  gesture : HandGesture
  position : Point2
  worldPosition : Vec3
  isPresent : Bool
  trackingMode : TrackingMode
  handSeparation : ℝ
  gripStrength : ℝ
  energyOutput : ℝ

/-- The initial UI state (InteractiveCanvas.tsx lines 54-63). -/
noncomputable def initHandData : HandData :=
  ⟨.NONE, ⟨0.5, 0.5⟩, ⟨0, 0, 0⟩, false, .NONE, 0, 0, 0⟩

/-- The gesture computed when a hand is tracked: start from HOVER,
overwrite with SPLIT when `splitFactor > 0.3`, else with GRIP when
`gripStrength > 0.5` (lines 417-419). -/
noncomputable def classifyGesture (split grip : ℝ) : HandGesture :=
  if split > 0.3 then .SPLIT
  else if grip > 0.5 then .GRIP
  else .HOVER

/-- The setHandData call of the sync block: when a hand is tracked the
snapshot is rebuilt from the smoothed state; otherwise only `isPresent`
is cleared and every other field — the gesture included — keeps its
previous value. -/
noncomputable def syncHandData (mode : TrackingMode) (st : PhysicsState)
    (prev : HandData) : HandData :=
  if mode ≠ .NONE then
    { gesture := classifyGesture st.splitFactor st.gripStrength
      position := ⟨0, 0⟩
      worldPosition := st.position
      isPresent := true
      trackingMode := mode
      handSeparation := st.splitFactor
      gripStrength := st.gripStrength
      energyOutput := (st.gripStrength + st.splitFactor) / 2 }
  else { prev with isPresent := false }

/-- A smoothed state with grip 0.6 and split 0, as left behind by a
tracked closed hand. -/
noncomputable def stGrip : PhysicsState := ⟨Vec3.origin, 0, 0.6, 0.005, 0⟩

theorem classifyGesture_stGrip :
    classifyGesture stGrip.splitFactor stGrip.gripStrength =
      HandGesture.GRIP := by
  show classifyGesture 0 0.6 = HandGesture.GRIP
  unfold classifyGesture
  rw [if_neg (by norm_num), if_pos (by norm_num)]

/-- C2 counterexample -- after a frame that reports GRIP, a frame with no
hand present keeps reporting GRIP (only `isPresent` is cleared): the
snapshot's gesture on a no-hand frame is not NONE. -/
theorem gesture_none_counterexample :
    (syncHandData TrackingMode.NONE stGrip
        (syncHandData TrackingMode.SINGLE stGrip initHandData)).gesture =
      HandGesture.GRIP ∧
    (syncHandData TrackingMode.NONE stGrip
        (syncHandData TrackingMode.SINGLE stGrip initHandData)).isPresent =
      false ∧
    HandGesture.GRIP ≠ HandGesture.NONE := by
  have hprev : (syncHandData TrackingMode.SINGLE stGrip initHandData).gesture =
      HandGesture.GRIP := by
    unfold syncHandData
    rw [if_pos (by decide)]
    exact classifyGesture_stGrip
  refine ⟨?_, ?_, by decide⟩
  · show (syncHandData TrackingMode.NONE stGrip _).gesture = _
    unfold syncHandData
    rw [if_neg (by decide)]
    exact hprev
  · show (syncHandData TrackingMode.NONE stGrip _).isPresent = false
    unfold syncHandData
    rw [if_neg (by decide)]

/-- C2 amended -- when a hand is tracked the reported gesture is the pure,
order-sensitive classification of the smoothed values (`split > 0.3` →
SPLIT, else `grip > 0.5` → GRIP, else HOVER) and `isPresent` is true;
when no hand is tracked the snapshot keeps the previous frame's gesture
(initially NONE) and only `isPresent` is cleared. -/
theorem gesture_classification_amended (mode : TrackingMode)
    (st : PhysicsState) (prev : HandData) :
    (mode ≠ TrackingMode.NONE →
      (syncHandData mode st prev).gesture =
        classifyGesture st.splitFactor st.gripStrength ∧
      (syncHandData mode st prev).isPresent = true) ∧
    (mode = TrackingMode.NONE →
      (syncHandData mode st prev).gesture = prev.gesture ∧
      (syncHandData mode st prev).isPresent = false) ∧
    (st.splitFactor > 0.3 →
      classifyGesture st.splitFactor st.gripStrength = HandGesture.SPLIT) ∧
    (¬ st.splitFactor > 0.3 → st.gripStrength > 0.5 →
      classifyGesture st.splitFactor st.gripStrength = HandGesture.GRIP) ∧
    (¬ st.splitFactor > 0.3 → ¬ st.gripStrength > 0.5 →
      classifyGesture st.splitFactor st.gripStrength = HandGesture.HOVER) := by
  refine ⟨?_, ?_, ?_, ?_, ?_⟩
  · intro hmode
    unfold syncHandData
    rw [if_pos hmode]
    exact ⟨rfl, rfl⟩
  · intro hmode
    unfold syncHandData
    rw [if_neg (by simp [hmode])]
    exact ⟨rfl, rfl⟩
  · intro hs
    unfold classifyGesture
    rw [if_pos hs]
  · intro hs hg
    unfold classifyGesture
    rw [if_neg hs, if_pos hg]
  · intro hs hg
    unfold classifyGesture
    rw [if_neg hs, if_neg hg]

/-- A smoothed state with split 0.4 and grip 0.9 (the spec's example in
which the split check wins). -/
noncomputable def stSplit : PhysicsState := ⟨Vec3.origin, 0.4, 0.9, 0.005, 0⟩

theorem gesture_classification_amended_witness :
    TrackingMode.SINGLE ≠ TrackingMode.NONE ∧
    (syncHandData TrackingMode.SINGLE stSplit initHandData).gesture =
      HandGesture.SPLIT := by
  have h := gesture_classification_amended TrackingMode.SINGLE stSplit
    initHandData
  refine ⟨by decide, ?_⟩
  rw [(h.1 (by decide)).1]
  exact h.2.2.1 (by show (0.4:ℝ) > 0.3; norm_num)

/-! ## The visual synthesizer: particle placement (animate, lines 322-413) -/

/-- Source: `compression = 1.0 - gripStrength * COMPRESSION_FACTOR` (line 326). -/
noncomputable def compression (grip : ℝ) : ℝ := 1 - grip * COMPRESSION_FACTOR

/-- Source: `visualScale = compression * (1 + splitFactor * 2)` (line 327). -/
noncomputable def visualScale (grip split : ℝ) : ℝ :=
  compression grip * (1 + split * 2)

/-- One particle record as initialized in initThree (lines 164-176):
a fixed spherical seed position, an unused random offset and a speed. -/
structure Particle where
  basePos : Vec3
  randomOffset : Vec3
  speed : ℝ

/-- The per-particle instance position of the animate loop (lines
372-401): vortex orbit when `splitFactor > 0.1`, otherwise the seed
position scaled by the current compression. -/
noncomputable def particleTargetPos (st : PhysicsState) (p : Particle)
    (i : ℕ) : Vec3 :=
  let time := st.time
  let angle := time * p.speed + (i : ℝ) * 0.1
  let radius :=
    SPHERE_RADIUS * visualScale st.gripStrength st.splitFactor *
      (1 + st.splitFactor * 4)
  let noiseX := Real.sin (time * 2 + (i : ℝ)) * st.splitFactor * 2
  let noiseY := Real.cos (time * 3 + (i : ℝ)) * st.splitFactor * 2
  let noiseZ := Real.sin (time * 1.5 + (i : ℝ)) * st.splitFactor * 2
  if st.splitFactor > 0.1 then
    ⟨Real.cos angle * radius + noiseX,
      p.basePos.y * compression st.gripStrength + noiseY,
      Real.sin angle * radius + noiseZ⟩
  else
    ⟨p.basePos.x * compression st.gripStrength,
      p.basePos.y * compression st.gripStrength,
      p.basePos.z * compression st.gripStrength⟩

/-- The data written into the instance matrix for one particle: its
position and its uniform scale `1 + gripStrength * 2`; the rotation is
`lookAt(0,0,0)`, a function of the position alone, so the pair
determines the whole transform. -/
noncomputable def particleTransform (st : PhysicsState) (p : Particle)
    (i : ℕ) : Vec3 × ℝ :=
  (particleTargetPos st p i, 1 + st.gripStrength * 2)

/-- One iteration of the per-particle loop body: it reads the record and
writes an instance matrix; the record itself is returned unchanged
because the loop never assigns to it. -/
noncomputable def particleStep (st : PhysicsState) (p : Particle)
    (i : ℕ) : Particle × (Vec3 × ℝ) :=
  (p, particleTransform st p i)

/-- C5 -- In surface mode (`splitFactor ≤ 0.1`) every particle sits at
`basePos * compression`, exactly; the position depends on neither `time`
nor the particle index. -/
theorem surface_mode_placement (st : PhysicsState) (p : Particle) (i : ℕ)
    (h : st.splitFactor ≤ 0.1) :
    particleTargetPos st p i = p.basePos.scale (compression st.gripStrength) ∧
    (∀ (st' : PhysicsState) (i' : ℕ), st'.splitFactor ≤ 0.1 →
      st'.gripStrength = st.gripStrength →
      particleTargetPos st' p i' = particleTargetPos st p i) := by
  have heval : ∀ (s : PhysicsState) (j : ℕ), s.splitFactor ≤ 0.1 →
      particleTargetPos s p j = p.basePos.scale (compression s.gripStrength) := by
    intro s j hs
    unfold particleTargetPos
    rw [if_neg (not_lt.mpr hs)]
    rfl
  refine ⟨heval st i h, ?_⟩
  intro st' i' h' hgrip
  rw [heval st' i' h', heval st i h, hgrip]

/-- A sample particle record. -/
noncomputable def someParticle : Particle := ⟨⟨1.5, 0, 0⟩, ⟨0.3, 0.2, 0.1⟩, 1⟩

theorem surface_mode_placement_witness :
    initState.splitFactor ≤ 0.1 ∧
    particleTargetPos initState someParticle 7 =
      someParticle.basePos.scale (compression initState.gripStrength) := by
  have h : initState.splitFactor ≤ 0.1 := by
    show (0:ℝ) ≤ 0.1
    norm_num
  exact ⟨h, (surface_mode_placement initState someParticle 7 h).1⟩

/-- C10 -- The per-particle update is independent of the dead
`randomOffset` field: records agreeing on `basePos` and `speed` yield the
same instance transform for every state and index, and the update leaves
the record itself untouched. -/
theorem randomOffset_independent (st : PhysicsState) (b ro ro' : Vec3)
    (sp : ℝ) (i : ℕ) :
    particleTransform st ⟨b, ro, sp⟩ i = particleTransform st ⟨b, ro', sp⟩ i ∧
    (particleStep st ⟨b, ro, sp⟩ i).1 = ⟨b, ro, sp⟩ :=
  ⟨rfl, rfl⟩

/-! ## The overlay metrics (HUD.tsx lines 11-13) -/

/-- Source: `pressure = Math.round(handData.gripStrength * 100)`. -/
noncomputable def pressure (d : HandData) : ℤ := round (d.gripStrength * 100)

/-- Source: `stability = Math.max(0, 100 - handData.handSeparation * 100)`. -/
noncomputable def stability (d : HandData) : ℝ :=
  max 0 (100 - d.handSeparation * 100)

/-- Source: `energyLevel = Math.min(100, Math.round((grip * 0.5 + sep * 0.5) * 100)
+ 10)`. -/
noncomputable def energyLevel (d : HandData) : ℤ :=
  min 100 (round ((d.gripStrength * 0.5 + d.handSeparation * 0.5) * 100) + 10)

/-- The spec's wording of the pressure metric: `round(gripStrength*100)`. -/
noncomputable def specPressure (grip : ℝ) : ℤ := round (grip * 100)

/-- The spec's wording of the stability metric: `100 - separation*100`,
clamped to be `≥ 0`. -/
noncomputable def specStability (sep : ℝ) : ℝ :=
  if 100 - sep * 100 < 0 then 0 else 100 - sep * 100

/-- The spec's wording of the energy metric:
`round((gripStrength*0.5 + separation*0.5)*100) + 10`, clamped `≤ 100`. -/
noncomputable def specEnergyOutput (grip sep : ℝ) : ℤ :=
  if (100 : ℤ) < round ((grip * 0.5 + sep * 0.5) * 100) + 10 then 100
  else round ((grip * 0.5 + sep * 0.5) * 100) + 10

/-- C9 -- For every HandSnapshot the three overlay metrics computed by the
HUD agree with the spec's presentation formulas: rounded pressure,
stability clamped from below at 0, energy output clamped from above at
100. -/
theorem hud_metrics_spec (d : HandData) :
    pressure d = specPressure d.gripStrength ∧
    stability d = specStability d.handSeparation ∧
    energyLevel d = specEnergyOutput d.gripStrength d.handSeparation := by
  refine ⟨rfl, ?_, ?_⟩
  · unfold stability specStability
    rcases lt_or_le (100 - d.handSeparation * 100) 0 with h | h
    · rw [if_pos h, max_eq_left h.le]
    · rw [if_neg (not_lt.mpr h), max_eq_right h]
  · unfold energyLevel specEnergyOutput
    rcases lt_or_le (100 : ℤ)
        (round ((d.gripStrength * 0.5 + d.handSeparation * 0.5) * 100) + 10)
      with h | h
    · rw [if_pos h, min_eq_left h.le]
    · rw [if_neg (not_lt.mpr h), min_eq_right h]

/-! ## IEEE-754 special values for the zero-hand-scale edge case

The landmark coordinates are ordinary finite numbers, so every
intermediate value of calculateGrip is finite except what comes out of
the division `avgDist / scaleBase`. JSVal carries the finite reals
together with NaN and the two infinities, and the operations below
follow the JavaScript (IEEE-754) rules on them. -/

inductive JSVal where
  | fin (x : ℝ)
  | inf
  | ninf
  | nan

/-- IEEE addition on extended values. -/
noncomputable def jsAdd : JSVal → JSVal → JSVal
  | .nan, _ => .nan
  | _, .nan => .nan
  | .fin x, .fin y => .fin (x + y)
  | .fin _, .inf => .inf
  | .fin _, .ninf => .ninf
  | .inf, .fin _ => .inf
  | .inf, .inf => .inf
  | .inf, .ninf => .nan
  | .ninf, .fin _ => .ninf
  | .ninf, .inf => .nan
  | .ninf, .ninf => .ninf

/-- IEEE subtraction on extended values. -/
noncomputable def jsSub : JSVal → JSVal → JSVal
  | .nan, _ => .nan
  | _, .nan => .nan
  | .fin x, .fin y => .fin (x - y)
  | .fin _, .inf => .ninf
  | .fin _, .ninf => .inf
  | .inf, .fin _ => .inf
  | .inf, .inf => .nan
  | .inf, .ninf => .inf
  | .ninf, .fin _ => .ninf
  | .ninf, .inf => .ninf
  | .ninf, .ninf => .nan

/-- IEEE multiplication on extended values. -/
noncomputable def jsMul : JSVal → JSVal → JSVal
  | .nan, _ => .nan
  | _, .nan => .nan
  | .fin x, .fin y => .fin (x * y)
  | .fin x, .inf => if x = 0 then .nan else if 0 < x then .inf else .ninf
  | .fin x, .ninf => if x = 0 then .nan else if 0 < x then .ninf else .inf
  | .inf, .fin y => if y = 0 then .nan else if 0 < y then .inf else .ninf
  | .ninf, .fin y => if y = 0 then .nan else if 0 < y then .ninf else .inf
  | .inf, .inf => .inf
  | .inf, .ninf => .ninf
  | .ninf, .inf => .ninf
  | .ninf, .ninf => .inf

/-- IEEE division on extended values (division of a finite value by
positive zero gives the infinity of the numerator's sign, `0/0` gives
NaN). -/
noncomputable def jsDiv : JSVal → JSVal → JSVal
  | .nan, _ => .nan
  | _, .nan => .nan
  | .fin x, .fin y =>
      if y = 0 then (if x = 0 then .nan else if 0 < x then .inf else .ninf)
      else .fin (x / y)
  | .fin _, .inf => .fin 0
  | .fin _, .ninf => .fin 0
  | .inf, .fin y => if 0 ≤ y then .inf else .ninf
  | .ninf, .fin y => if 0 ≤ y then .ninf else .inf
  | .inf, .inf => .nan
  | .inf, .ninf => .nan
  | .ninf, .inf => .nan
  | .ninf, .ninf => .nan

/-- Math.min: NaN if either argument is NaN, the smaller value otherwise. -/
noncomputable def jsMin : JSVal → JSVal → JSVal
  | .nan, _ => .nan
  | _, .nan => .nan
  | .ninf, _ => .ninf
  | _, .ninf => .ninf
  | .inf, b => b
  | a, .inf => a
  | .fin x, .fin y => .fin (min x y)

/-- Math.max: NaN if either argument is NaN, the larger value otherwise. -/
noncomputable def jsMax : JSVal → JSVal → JSVal
  | .nan, _ => .nan
  | _, .nan => .nan
  | .inf, _ => .inf
  | _, .inf => .inf
  | .ninf, b => b
  | a, .ninf => a
  | .fin x, .fin y => .fin (max x y)

/-- The rawGrip chain computed in IEEE arithmetic: the only non-finite value can
come from the division `avgDist / scaleBase`. -/
noncomputable def rawGripJS (l : Hand) : JSVal :=
  jsSub (.fin 1)
    (jsDiv (jsSub (jsDiv (.fin (avgDist l)) (.fin (scaleBase l))) (.fin 0.6))
      (.fin 1.2))

/-- The function calculateGrip in IEEE arithmetic:
`Math.max(0, Math.min(1, rawGrip))`. -/
noncomputable def calculateGripJS (l : Hand) : JSVal :=
  jsMax (.fin 0) (jsMin (.fin 1) (rawGripJS l))

/-- The grip smoothing tick
`state + (target - state) * SMOOTHING_FACTOR` in IEEE arithmetic, for a
possibly non-finite target and a finite current state. -/
noncomputable def stepGripJS (target : JSVal) (s : ℝ) : JSVal :=
  jsAdd (.fin s) (jsMul (jsSub target (.fin s)) (.fin SMOOTHING_FACTOR))

/-! Constructor-case equations for the extended operations (the `if`s on
real comparisons are stuck on classical instances, so the cases are
exposed as rewrite rules). -/

theorem jsDiv_fin_fin (x y : ℝ) :
    jsDiv (.fin x) (.fin y) =
      if y = 0 then (if x = 0 then .nan else if 0 < x then .inf else .ninf)
      else .fin (x / y) := rfl

theorem jsDiv_nan (b : JSVal) : jsDiv .nan b = .nan := by cases b <;> rfl

theorem jsDiv_inf_fin (y : ℝ) :
    jsDiv .inf (.fin y) = if 0 ≤ y then .inf else .ninf := rfl

theorem jsSub_fin_fin (x y : ℝ) : jsSub (.fin x) (.fin y) = .fin (x - y) :=
  rfl

theorem jsSub_nan (b : JSVal) : jsSub .nan b = .nan := by cases b <;> rfl

theorem jsSub_fin_nan (x : ℝ) : jsSub (.fin x) .nan = .nan := rfl

theorem jsSub_inf_fin (y : ℝ) : jsSub .inf (.fin y) = .inf := rfl

theorem jsSub_fin_inf (x : ℝ) : jsSub (.fin x) .inf = .ninf := rfl

theorem jsMul_nan (b : JSVal) : jsMul .nan b = .nan := by cases b <;> rfl

theorem jsAdd_fin_nan (x : ℝ) : jsAdd (.fin x) .nan = .nan := rfl

theorem jsMin_fin_fin (x y : ℝ) : jsMin (.fin x) (.fin y) = .fin (min x y) :=
  rfl

theorem jsMin_fin_nan (x : ℝ) : jsMin (.fin x) .nan = .nan := rfl

theorem jsMin_fin_ninf (x : ℝ) : jsMin (.fin x) .ninf = .ninf := rfl

theorem jsMax_fin_fin (x y : ℝ) : jsMax (.fin x) (.fin y) = .fin (max x y) :=
  rfl

theorem jsMax_fin_nan (x : ℝ) : jsMax (.fin x) .nan = .nan := rfl

theorem jsMax_fin_ninf (x : ℝ) : jsMax (.fin x) .ninf = .fin x := rfl

/-- On hands whose scale is nonzero the IEEE computation agrees with the
real-number model. -/
theorem calculateGripJS_of_ne (l : Hand) (h : scaleBase l ≠ 0) :
    calculateGripJS l = .fin (calculateGrip l) := by
  unfold calculateGripJS rawGripJS calculateGrip rawGrip
  rw [jsDiv_fin_fin, if_neg h, jsSub_fin_fin, jsDiv_fin_fin,
    if_neg (by norm_num : (1.2:ℝ) ≠ 0), jsSub_fin_fin, jsMin_fin_fin,
    jsMax_fin_fin]

/-- C7 -- When `scaleBase = 0` the division is performed unguarded:
`rawGrip` is NaN or `-∞`. If all fingertips coincide with the wrist
(`avgDist = 0`) the NaN survives the clamp and poisons the smoothing
step that writes the render state; otherwise the `-∞` is clamped and a
constant 0 — a value not produced by the documented formula — is handed
to the render state. -/
theorem grip_zero_scale_division (l : Hand) (s : ℝ)
    (h : scaleBase l = 0) :
    (rawGripJS l = .nan ∨ rawGripJS l = .ninf) ∧
    (avgDist l = 0 → calculateGripJS l = .nan ∧
      stepGripJS (calculateGripJS l) s = .nan) ∧
    (0 < avgDist l → rawGripJS l = .ninf ∧ calculateGripJS l = .fin 0) := by
  have hnan : avgDist l = 0 → rawGripJS l = .nan := by
    intro ha
    unfold rawGripJS
    rw [ha, h, jsDiv_fin_fin, if_pos rfl, if_pos rfl, jsSub_nan, jsDiv_nan,
      jsSub_fin_nan]
  have hninf : 0 < avgDist l → rawGripJS l = .ninf := by
    intro ha
    unfold rawGripJS
    rw [h, jsDiv_fin_fin, if_pos rfl, if_neg (ne_of_gt ha), if_pos ha,
      jsSub_inf_fin, jsDiv_inf_fin, if_pos (by norm_num : (0:ℝ) ≤ 1.2),
      jsSub_fin_inf]
  constructor
  · rcases eq_or_lt_of_le (avgDist_nonneg l) with ha | ha
    · exact Or.inl (hnan ha.symm)
    · exact Or.inr (hninf ha)
  constructor
  · intro ha
    have hr := hnan ha
    have hcg : calculateGripJS l = .nan := by
      unfold calculateGripJS
      rw [hr, jsMin_fin_nan, jsMax_fin_nan]
    refine ⟨hcg, ?_⟩
    rw [hcg]
    unfold stepGripJS
    rw [jsSub_nan, jsMul_nan, jsAdd_fin_nan]
  · intro ha
    have hr := hninf ha
    refine ⟨hr, ?_⟩
    unfold calculateGripJS
    rw [hr, jsMin_fin_ninf, jsMax_fin_ninf]

/-- Every landmark of the degenerate hand coincides, so its scale and
its average fingertip distance are both zero. -/
theorem zeroHand_scaleBase : scaleBase zeroHand = 0 := by
  unfold scaleBase dist2 zeroHand
  rw [show ((0:ℝ) - 0) ^ 2 + ((0:ℝ) - 0) ^ 2 = 0 by ring]
  exact Real.sqrt_zero

theorem zeroHand_avgDist : avgDist zeroHand = 0 := by
  have hz : dist2 (zeroHand 0) (zeroHand 4) = 0 := by
    unfold dist2 zeroHand
    rw [show ((0:ℝ) - 0) ^ 2 + ((0:ℝ) - 0) ^ 2 = 0 by ring]
    exact Real.sqrt_zero
  unfold avgDist totalDist
  unfold dist2 zeroHand at hz ⊢
  rw [hz]
  norm_num

theorem grip_zero_scale_division_witness :
    scaleBase zeroHand = 0 ∧ calculateGripJS zeroHand = .nan ∧
    stepGripJS (calculateGripJS zeroHand) 0.4 = .nan := by
  have h := (grip_zero_scale_division zeroHand 0.4 zeroHand_scaleBase).2.1
    zeroHand_avgDist
  exact ⟨zeroHand_scaleBase, h.1, h.2⟩

end MagicBall
